import Mathlib

/-!
Verification of the alphabet/number quiz application (`script.js`).

The JavaScript source is shallowly embedded: strings are lists of
characters, JS numbers appearing in the relevant code paths are exact
integers (`Int`/`Nat`), wall-clock instants are integer milliseconds
passed explicitly, and the DOM/UI layer is dropped (it never feeds back
into the quiz state).  `Math.floor(x / 1000)` on a real quotient is
floor division, embedded as Euclidean division `/` on `ℤ` (the divisor
is always positive, where the two agree).  Callbacks are modelled by
presence flags plus explicit event lists.
-/

namespace AlphanumDash

/-- JS strings, embedded as lists of characters. -/
abbrev Str := List Char

/-- The character class removed by `String.prototype.trim` (WhiteSpace and
LineTerminator code points of the ECMAScript grammar). -/
def jsIsWhitespace (c : Char) : Bool :=
  decide (c.toNat = 9 ∨ c.toNat = 10 ∨ c.toNat = 11 ∨ c.toNat = 12 ∨
    c.toNat = 13 ∨ c.toNat = 32 ∨ c.toNat = 160 ∨ c.toNat = 0x1680 ∨
    (0x2000 ≤ c.toNat ∧ c.toNat ≤ 0x200a) ∨ c.toNat = 0x2028 ∨
    c.toNat = 0x2029 ∨ c.toNat = 0x202f ∨ c.toNat = 0x205f ∨
    c.toNat = 0x3000 ∨ c.toNat = 0xfeff)

/-- `s.trim()`: drop whitespace from both ends. -/
def jsTrim (s : Str) : Str :=
  ((s.dropWhile jsIsWhitespace).reverse.dropWhile jsIsWhitespace).reverse

/-- `toUpperCase` on a single character (ASCII range; characters outside
`a`–`z` are left unchanged, matching JS on the inputs this program
compares). -/
def toUpperChar (c : Char) : Char :=
  if 97 ≤ c.toNat ∧ c.toNat ≤ 122 then Char.ofNat (c.toNat - 32) else c

/-- `s.toUpperCase()`. -/
def jsToUpper (s : Str) : Str := s.map toUpperChar

/-- `QuestionGenerator.normalizeAnswer`: `answer.toString().trim().toUpperCase()`. -/
def normalizeAnswer (answer : Str) : Str := jsToUpper (jsTrim answer)

/-- `QuestionGenerator.validateAnswer` (the spec's `answersMatch`):
false when either string is falsy (empty), otherwise compare the
normalized forms. -/
def validateAnswer (userAnswer correctAnswer : Str) : Bool :=
  if userAnswer = [] ∨ correctAnswer = [] then false
  else decide (normalizeAnswer userAnswer = normalizeAnswer correctAnswer)

/-- An ASCII decimal digit (`[0-9]`). -/
def isDigitChar (c : Char) : Bool := decide (48 ≤ c.toNat ∧ c.toNat ≤ 57)

/-- Value of a run of decimal digits, most significant first. -/
def digitsToNat (ds : Str) : Nat := ds.foldl (fun a c => 10 * a + (c.toNat - 48)) 0

/-- `parseInt(s, 10)`: skip leading whitespace, take an optional sign and
the longest prefix of decimal digits; `NaN` (here `none`) when no digit
follows. -/
def jsParseInt (s : Str) : Option Int :=
  let t := s.dropWhile jsIsWhitespace
  match t with
  | '-' :: rest =>
      let ds := rest.takeWhile isDigitChar
      if ds = [] then none else some (-(digitsToNat ds : Int))
  | '+' :: rest =>
      let ds := rest.takeWhile isDigitChar
      if ds = [] then none else some ((digitsToNat ds : Int))
  | _ =>
      let ds := t.takeWhile isDigitChar
      if ds = [] then none else some ((digitsToNat ds : Int))

/-- `n.toString()` for an integer-valued JS number: canonical decimal
digits, with a leading minus sign for negative values. -/
def intToStr (n : Int) : Str :=
  if n < 0 then '-' :: Nat.toDigits 10 (-n).toNat else Nat.toDigits 10 n.toNat

/-- `CONFIG.MIN_NUMBER`. -/
def MIN_NUMBER : Int := 1

/-- `CONFIG.MAX_NUMBER`. -/
def MAX_NUMBER : Int := 26

/-- `CONFIG.QUESTION_TIME_LIMIT` (seconds). -/
def QUESTION_TIME_LIMIT : Int := 10

/-- `CONFIG.TOTAL_QUESTIONS`. -/
def TOTAL_QUESTIONS : Nat := 10

/-- `QuestionGenerator.isValidNumber`: falsy input is rejected, then the
trimmed string must `parseInt` to a number whose `toString` reproduces
the trimmed string exactly and which lies in `[MIN_NUMBER, MAX_NUMBER]`. -/
def isValidNumber (input : Str) : Bool :=
  if input = [] then false
  else
    match jsParseInt (jsTrim input) with
    | none => false
    | some n =>
        decide (intToStr n = jsTrim input) && decide (MIN_NUMBER ≤ n) &&
          decide (n ≤ MAX_NUMBER)

/-- `QuestionGenerator.isValidLetter`: trimmed, upper-cased input must be a
single character matching `/^[A-Z]$/`. -/
def isValidLetter (input : Str) : Bool :=
  if input = [] then false
  else
    let normalized := jsToUpper (jsTrim input)
    normalized.length == 1 && normalized.all (fun c => decide ('A' ≤ c ∧ c ≤ 'Z'))

/-- Result of `QuestionGenerator.validateInput`. -/
structure ValidationResult where
  isValid : Bool
  errorMessage : Option Str
deriving DecidableEq

/-- `QuestionGenerator.validateInput`: blank input is rejected with a
generic message; the kind-specific checks run only for the two
recognized `expectedType` values, then the input is accepted. -/
def validateInput (input : Str) (expectedType : Str) : ValidationResult :=
  if input = [] ∨ jsTrim input = [] then
    ⟨false, some "Please enter an answer".data⟩
  else if expectedType = "letter".data then
    if !isValidLetter input then
      ⟨false, some "Please enter a single letter (A-Z)".data⟩
    else ⟨true, none⟩
  else if expectedType = "number".data then
    if !isValidNumber input then
      ⟨false, some "Please enter a number between 1 and 26".data⟩
    else ⟨true, none⟩
  else ⟨true, none⟩

/-- A quiz question as produced by `QuestionGenerator.generateQuestion`. -/
structure Question where
  id : Str
  type : Str
  prompt : Str
  correctAnswer : Str
  displayValue : Str
deriving DecidableEq

/-- One entry of `ScoreTracker.answerRecords`. -/
structure AnswerRecord where
  questionNumber : Nat
  questionId : Str
  questionType : Str
  questionText : Str
  displayValue : Str
  correctAnswer : Str
  userAnswer : Str
  isCorrect : Bool
  timeUsed : Int
  timedOut : Bool
  timestamp : Int
deriving DecidableEq

/-- The record object built inside `ScoreTracker.recordAnswer`: ordinal
`length + 1`, `userAnswer || ''`, and `timeUsed` clamped into
`[0, QUESTION_TIME_LIMIT]`.  The `new Date()` timestamp is the explicit
`now` argument. -/
def mkAnswerRecord (records : List AnswerRecord) (q : Question)
    (userAnswer : Str) (isCorrect : Bool) (timeUsed : Int) (timedOut : Bool)
    (now : Int) : AnswerRecord :=
  { questionNumber := records.length + 1
    questionId := q.id
    questionType := q.type
    questionText := q.prompt
    displayValue := q.displayValue
    correctAnswer := q.correctAnswer
    userAnswer := userAnswer
    isCorrect := isCorrect
    timeUsed := max 0 (min timeUsed QUESTION_TIME_LIMIT)
    timedOut := timedOut
    timestamp := now }

/-- `ScoreTracker.recordAnswer`: throws when `question` is absent,
otherwise appends exactly the one record built by `mkAnswerRecord`. -/
def recordAnswer (records : List AnswerRecord) (question : Option Question)
    (userAnswer : Str) (isCorrect : Bool) (timeUsed : Int) (timedOut : Bool)
    (now : Int) : Except Str (List AnswerRecord) :=
  match question with
  | none => .error "Question object is required".data
  | some q =>
      .ok (records ++ [mkAnswerRecord records q userAnswer isCorrect timeUsed timedOut now])

/-- Result of `ScoreTracker.getScore`. -/
structure Score where
  correct : Nat
  incorrect : Nat
  timeout : Nat
  total : Nat
  percentage : Nat
deriving DecidableEq

/-- `ScoreTracker.getScore`.  `Math.round((correct / total) * 100)` on the
exact quotient is round-half-up, i.e. `⌊(100·correct + total/2) / total⌋`,
embedded as the natural-number division `(2·(100·correct) + total) / (2·total)`. -/
def getScore (records : List AnswerRecord) : Score :=
  let correct := (records.filter (fun r => r.isCorrect)).length
  let incorrect := (records.filter (fun r => !r.isCorrect && !r.timedOut)).length
  let timeout := (records.filter (fun r => r.timedOut)).length
  let total := records.length
  { correct := correct
    incorrect := incorrect
    timeout := timeout
    total := total
    percentage := if total > 0 then (2 * (100 * correct) + total) / (2 * total) else 0 }

/-- State of a `Timer` object.  Callback references and the interval id
are modelled by presence flags; instants are integer milliseconds. -/
structure Timer where
  duration : Int
  timeRemaining : Int
  hasInterval : Bool
  isRunning : Bool
  hasOnTick : Bool
  hasOnComplete : Bool
  startTime : Int
  pausedTime : Int
  isPaused : Bool
deriving DecidableEq

/-- The `Timer` constructor. -/
def Timer.init : Timer :=
  { duration := 0, timeRemaining := 0, hasInterval := false, isRunning := false
    hasOnTick := false, hasOnComplete := false, startTime := 0, pausedTime := 0
    isPaused := false }

/-- `Timer.stop`: clear the interval and the callbacks, zero the remaining
time, mark not running and not paused. -/
def Timer.stop (tm : Timer) : Timer :=
  { tm with
    hasInterval := false, isRunning := false, isPaused := false,
    timeRemaining := 0, hasOnTick := false, hasOnComplete := false }

/-- Observable timer events: a value passed to `onTick`, or an invocation
of `onComplete`. -/
inductive TEvent where
  | tick (remaining : Int)
  | complete
deriving DecidableEq

/-- The remaining time a tick at instant `now` computes:
`max(0, duration - floor((now - startTime) / 1000))`. -/
def remainingAtTime (tm : Timer) (now : Int) : Int :=
  max 0 (tm.duration - (now - tm.startTime) / 1000)

/-- `Timer.tick` at instant `now`: returns early when not running or
paused; otherwise recomputes `timeRemaining`, emits `onTick`, and on
reaching zero runs `handleTimerComplete` (which saves the completion
callback, stops the timer, and invokes the callback). -/
def Timer.tick (tm : Timer) (now : Int) : Timer × List TEvent :=
  if !tm.isRunning || tm.isPaused then (tm, [])
  else
    let remaining := remainingAtTime tm now
    let tickEvs := if tm.hasOnTick then [TEvent.tick remaining] else []
    if remaining ≤ 0 then
      let completeEvs := if tm.hasOnComplete then [TEvent.complete] else []
      (Timer.stop { tm with timeRemaining := remaining }, tickEvs ++ completeEvs)
    else ({ tm with timeRemaining := remaining }, tickEvs)

/-- `Timer.start` at instant `now`: stop any running timer, install the
duration and callbacks, emit the synchronous initial tick, and either
complete at once (`duration ≤ 0`, via the zero-delay timeout, which in an
undisturbed run is the next thing to happen) or arm the interval. -/
def Timer.start (tm : Timer) (d : Int) (hasComplete hasTick : Bool)
    (now : Int) : Timer × List TEvent :=
  let tm0 := if tm.isRunning then Timer.stop tm else tm
  let tm1 := { tm0 with
    duration := d, timeRemaining := d,
    hasOnComplete := hasComplete, hasOnTick := hasTick, isRunning := true,
    startTime := now, pausedTime := 0, isPaused := false }
  let evs := if hasTick then [TEvent.tick d] else []
  if d ≤ 0 then
    let completeEvs := if hasComplete then [TEvent.complete] else []
    (Timer.stop tm1, evs ++ completeEvs)
  else
    ({ tm1 with hasInterval := true }, evs)

/-- `Timer.pause` at instant `now`: only effective while running and not
paused; records the pause instant and clears the interval. -/
def Timer.pause (tm : Timer) (now : Int) : Timer :=
  if tm.isRunning && !tm.isPaused then
    { tm with isPaused := true, pausedTime := now, hasInterval := false }
  else tm

/-- `Timer.resume` at instant `now`: only effective while running and
paused; shifts `startTime` forward by the paused duration and re-arms the
interval. -/
def Timer.resume (tm : Timer) (now : Int) : Timer :=
  if tm.isRunning && tm.isPaused then
    { tm with
      isPaused := false,
      startTime := tm.startTime + (now - tm.pausedTime), hasInterval := true }
  else tm

/-- Run the interval ticks of one timer at the given instants, collecting
the emitted events. -/
def foldTicks : Timer → List Int → List TEvent
  | _, [] => []
  | tm, t :: ts =>
      let (tm', evs) := Timer.tick tm t
      evs ++ foldTicks tm' ts

/-- One externally undisturbed run of `start(d, onComplete, onTick)`
begun at instant `t0`, whose scheduler fires ticks at the instants in
`times`: the events of `start` followed by the events of the ticks. -/
def runTimer (d : Int) (t0 : Int) (times : List Int) : List TEvent :=
  let (tm, evs) := Timer.start Timer.init d true true t0
  evs ++ foldTicks tm times

/-- The values passed to `onTick`, in order. -/
def tickValues (evs : List TEvent) : List Int :=
  evs.filterMap (fun e => match e with | .tick r => some r | .complete => none)

/-- The number of `onComplete` invocations. -/
def countComplete (evs : List TEvent) : Nat :=
  (evs.filter (fun e => match e with | .complete => true | _ => false)).length

/-- `gameState.status`. -/
inductive GameStatus where
  | notStarted
  | active
  | completed
  | error
deriving DecidableEq

/-- The quiz state a `QuizGame` works on: the orchestrator's own fields,
its timer, and the `ScoreTracker` log. -/
structure GameSt where
  status : GameStatus
  currentQuestionIndex : Nat
  currentQuestion : Option Question
  currentQuestionStartTime : Int
  isWaitingForNextQuestion : Bool
  timer : Timer
  records : List AnswerRecord
deriving DecidableEq

/-- The observable result of one orchestrator entry point. -/
inductive Outcome where
  | ignored
  | validationError (msg : Option Str)
  | recorded
  | timedOutRecorded
  | errored
deriving DecidableEq

/-- The expected answer kind for a question:
`type === 'alphabet-to-number' ? 'number' : 'letter'`. -/
def expectedTypeFor (q : Question) : Str :=
  if q.type = "alphabet-to-number".data then "number".data else "letter".data

/-- `QuizGame.submitAnswer` at instant `now`: ignored while waiting for
the next question, when not active, without a current question, or when
the timer has expired; invalid input surfaces its message and consumes
nothing; otherwise the elapsed time is computed, the timer stopped, the
answer checked and recorded, and the waiting latch set (the delayed
`nextQuestion` is scheduled afterwards and not part of this step). -/
def submitAnswer (g : GameSt) (answer : Str) (now : Int) : GameSt × Outcome :=
  if g.isWaitingForNextQuestion ∨ g.status ≠ GameStatus.active then (g, .ignored)
  else match g.currentQuestion with
  | none => (g, .ignored)
  | some q =>
      if !g.timer.isRunning || g.timer.timeRemaining ≤ 0 then (g, .ignored)
      else if !(validateInput answer (expectedTypeFor q)).isValid then
        (g, .validationError (validateInput answer (expectedTypeFor q)).errorMessage)
      else
        match recordAnswer g.records (some q) answer
            (validateAnswer answer q.correctAnswer)
            ((now - g.currentQuestionStartTime) / 1000) false now with
        | .error _ =>
            ({ g with status := GameStatus.error, timer := Timer.stop g.timer },
              .errored)
        | .ok records' =>
            ({ g with
                timer := Timer.stop g.timer, records := records',
                isWaitingForNextQuestion := true }, .recorded)

/-- `QuizGame.handleTimerComplete` at instant `now`: ignored under the
same waiting/active/question guard; otherwise records a timeout answer
(empty answer, incorrect, full duration, timed out) and sets the waiting
latch. -/
def handleTimerComplete (g : GameSt) (now : Int) : GameSt × Outcome :=
  if g.isWaitingForNextQuestion ∨ g.status ≠ GameStatus.active then (g, .ignored)
  else match g.currentQuestion with
  | none => (g, .ignored)
  | some q =>
      match recordAnswer g.records (some q) [] false QUESTION_TIME_LIMIT true now with
      | .error _ => (g, .errored)
      | .ok records' =>
          ({ g with records := records', isWaitingForNextQuestion := true },
            .timedOutRecorded)

/-- The remaining value a tick of a timer started at `t0` with duration
`d` computes at instant `t` (the closed form of `remainingAtTime`). -/
def remAt (d t0 t : Int) : Int := max 0 (d - (t - t0) / 1000)

/-- The state of a timer that was started at `t0` with duration `d`,
both callbacks installed, and whose stored `timeRemaining` is `r`. -/
def mkRunning (d t0 r : Int) : Timer :=
  { duration := d, timeRemaining := r, hasInterval := true, isRunning := true,
    hasOnTick := true, hasOnComplete := true, startTime := t0, pausedTime := 0,
    isPaused := false }

/-- A fixture: an alphabet-to-number question (letter M). -/
def sampleQuestion : Question :=
  { id := "q1".data, type := "alphabet-to-number".data,
    prompt := "What number is the letter M?".data,
    correctAnswer := "13".data, displayValue := "M".data }

/-- A fixture: a running timer five seconds into a question. -/
def sampleTimer : Timer :=
  { duration := 10, timeRemaining := 5, hasInterval := true, isRunning := true,
    hasOnTick := true, hasOnComplete := true, startTime := 0, pausedTime := 0,
    isPaused := false }

/-- A fixture: an active session on `sampleQuestion` with a live timer. -/
def sampleGame : GameSt :=
  { status := GameStatus.active, currentQuestionIndex := 0,
    currentQuestion := some sampleQuestion, currentQuestionStartTime := 0,
    isWaitingForNextQuestion := false, timer := sampleTimer, records := [] }

theorem charOfNat_toNat {m : Nat} (h1 : 65 ≤ m) (h2 : m ≤ 90) :
    (Char.ofNat m).toNat = m := by
  interval_cases m <;> decide

theorem toUpperChar_idem (c : Char) : toUpperChar (toUpperChar c) = toUpperChar c := by
  unfold toUpperChar
  split
  · rename_i h
    have ht : (Char.ofNat (c.toNat - 32)).toNat = c.toNat - 32 :=
      charOfNat_toNat (by omega) (by omega)
    rw [if_neg (by rw [ht]; omega)]
  · rfl

theorem jsIsWhitespace_toUpperChar (c : Char) :
    jsIsWhitespace (toUpperChar c) = jsIsWhitespace c := by
  unfold toUpperChar
  split
  · rename_i h
    have ht : (Char.ofNat (c.toNat - 32)).toNat = c.toNat - 32 :=
      charOfNat_toNat (by omega) (by omega)
    unfold jsIsWhitespace
    rw [decide_eq_decide, ht]
    constructor <;> (intro hw; omega)
  · rfl

theorem dropWhile_self (p : α → Bool) (l : List α) :
    (l.dropWhile p).dropWhile p = l.dropWhile p := by
  induction l with
  | nil => rfl
  | cons a l ih =>
      by_cases h : p a
      · simp only [List.dropWhile_cons, if_pos h]; exact ih
      · simp only [List.dropWhile_cons, if_neg h]

theorem dropWhile_of_self_of_isPrefixOf {p : α → Bool} {l l' : List α}
    (hp : l' <+: l) (h : l.dropWhile p = l) : l'.dropWhile p = l' := by
  cases l' with
  | nil => rfl
  | cons a t =>
      obtain ⟨u, hu⟩ := hp
      rw [← hu] at h
      rw [List.cons_append, List.dropWhile_cons] at h
      by_cases hpa : p a
      · exfalso
        rw [if_pos hpa] at h
        have hlen : ((t ++ u).dropWhile p).length ≤ (t ++ u).length :=
          List.Sublist.length_le (List.IsSuffix.sublist (List.dropWhile_suffix p))
        have := congrArg List.length h
        simp only [List.length_cons] at this
        omega
      · rw [List.dropWhile_cons, if_neg hpa]

theorem jsTrim_front (s : Str) : (jsTrim s).dropWhile jsIsWhitespace = jsTrim s := by
  unfold jsTrim
  apply dropWhile_of_self_of_isPrefixOf (l := s.dropWhile jsIsWhitespace)
  · rw [← List.reverse_suffix, List.reverse_reverse]
    exact List.dropWhile_suffix jsIsWhitespace
  · exact dropWhile_self jsIsWhitespace s

theorem jsTrim_back (s : Str) :
    (jsTrim s).reverse.dropWhile jsIsWhitespace = (jsTrim s).reverse := by
  unfold jsTrim
  rw [List.reverse_reverse]
  exact dropWhile_self _ _

theorem jsTrim_idem (s : Str) : jsTrim (jsTrim s) = jsTrim s := by
  conv_lhs => rw [jsTrim]
  rw [jsTrim_front, jsTrim_back, List.reverse_reverse]

theorem jsTrim_map_toUpperChar (s : Str) :
    jsTrim (jsToUpper s) = jsToUpper (jsTrim s) := by
  unfold jsTrim jsToUpper
  have hws : jsIsWhitespace ∘ toUpperChar = jsIsWhitespace :=
    funext jsIsWhitespace_toUpperChar
  rw [List.dropWhile_map, hws, ← List.map_reverse, List.dropWhile_map, hws,
    ← List.map_reverse]

theorem jsToUpper_idem (s : Str) : jsToUpper (jsToUpper s) = jsToUpper s := by
  unfold jsToUpper
  rw [List.map_map]
  exact List.map_congr_left fun c _ => toUpperChar_idem c

theorem normalizeAnswer_idem (a : Str) :
    normalizeAnswer (normalizeAnswer a) = normalizeAnswer a := by
  unfold normalizeAnswer
  rw [jsTrim_map_toUpperChar, jsTrim_idem, jsToUpper_idem]

theorem jsTrim_ne_nil_of_ne {s : Str} (h : jsTrim s ≠ []) : s ≠ [] := by
  intro hs
  exact h (by rw [hs]; rfl)

theorem normalizeAnswer_ne_nil {s : Str} (h : jsTrim s ≠ []) :
    normalizeAnswer s ≠ [] := by
  unfold normalizeAnswer jsToUpper
  simpa using h

/-- C3 counterexample: on whitespace-only inputs `answersMatch` returns
true, but on the normalized (empty) inputs it returns false, so
`answersMatch(a,b) == answersMatch(normalize(a), normalize(b))` fails at
`a = b = " "`. -/
theorem validateAnswer_normalize_counterexample :
    validateAnswer " ".data " ".data = true ∧
    validateAnswer (normalizeAnswer " ".data) (normalizeAnswer " ".data) = false := by
  decide

/-- C3 (amended): for strings that are not whitespace-only,
`answersMatch(a,b) == answersMatch(normalize(a), normalize(b))`, and
`answersMatch(x,x) == true` for every non-empty `x`. -/
theorem validateAnswer_normalize (a b x : Str)
    (ha : jsTrim a ≠ []) (hb : jsTrim b ≠ []) (hx : x ≠ []) :
    validateAnswer a b = validateAnswer (normalizeAnswer a) (normalizeAnswer b) ∧
    validateAnswer x x = true := by
  constructor
  · have ha' : a ≠ [] := jsTrim_ne_nil_of_ne ha
    have hb' : b ≠ [] := jsTrim_ne_nil_of_ne hb
    unfold validateAnswer
    rw [if_neg (by tauto), if_neg (by
      push_neg
      exact ⟨normalizeAnswer_ne_nil ha, normalizeAnswer_ne_nil hb⟩)]
    rw [normalizeAnswer_idem, normalizeAnswer_idem]
  · unfold validateAnswer
    rw [if_neg (by tauto)]
    simp

theorem validateAnswer_normalize_witness :
    validateAnswer "m".data " M ".data =
      validateAnswer (normalizeAnswer "m".data) (normalizeAnswer " M ".data) ∧
    validateAnswer "q".data "q".data = true :=
  validateAnswer_normalize _ _ _ (by decide) (by decide) (by decide)

/-- C7: `isValidNumber` accepts exactly the strings whose trimmed form is
the canonical decimal rendering of an integer between 1 and 26. -/
theorem isValidNumber_iff_canonical (s : Str) :
    isValidNumber s = true ↔
      ∃ n : Nat, 1 ≤ n ∧ n ≤ 26 ∧ jsTrim s = Nat.toDigits 10 n := by
  constructor
  · intro h
    unfold isValidNumber at h
    split at h
    · exact absurd h (by simp)
    · rename_i hne
      split at h
      · exact absurd h (by simp)
      · rename_i n hn
        simp only [Bool.and_eq_true, decide_eq_true_eq] at h
        obtain ⟨⟨hstr, hlo⟩, hhi⟩ := h
        refine ⟨n.toNat, ?_, ?_, ?_⟩
        · unfold MIN_NUMBER at hlo; omega
        · unfold MAX_NUMBER at hhi; omega
        · rw [← hstr]
          unfold intToStr
          rw [if_neg (by unfold MIN_NUMBER at hlo; omega)]
  · rintro ⟨n, hlo, hhi, htrim⟩
    have hne : s ≠ [] := jsTrim_ne_nil_of_ne (by
      rw [htrim]
      interval_cases n <;> decide)
    unfold isValidNumber
    rw [if_neg hne, htrim]
    interval_cases n <;> decide

/-- C10: for non-blank input and an `expectedType` other than `letter`
and `number`, `validateInput` accepts without any well-formedness
check. -/
theorem validateInput_unrecognized_kind (input ty : Str)
    (h1 : jsTrim input ≠ []) (h2 : ty ≠ "letter".data) (h3 : ty ≠ "number".data) :
    validateInput input ty = ⟨true, none⟩ := by
  have hne : input ≠ [] := jsTrim_ne_nil_of_ne h1
  unfold validateInput
  rw [if_neg (by tauto), if_neg h2, if_neg h3]

theorem validateInput_unrecognized_kind_witness :
    validateInput "27".data "word".data = ⟨true, none⟩ :=
  validateInput_unrecognized_kind _ _ (by decide) (by decide) (by decide)

/-- C8: `recordAnswer` fails exactly on an absent question (touching no
state in the functional embedding), and otherwise appends exactly one
record with ordinal `length + 1` and `timeUsedSeconds` clamped into
`[0, QUESTION_TIME_LIMIT]`. -/
theorem recordAnswer_spec (records : List AnswerRecord) (q : Question)
    (ua : Str) (ic : Bool) (t : Int) (tOut : Bool) (now : Int) :
    recordAnswer records none ua ic t tOut now =
      .error "Question object is required".data ∧
    ∃ r, recordAnswer records (some q) ua ic t tOut now = .ok (records ++ [r]) ∧
      r.questionNumber = records.length + 1 ∧
      r.timeUsed = max 0 (min t QUESTION_TIME_LIMIT) ∧
      0 ≤ r.timeUsed ∧ r.timeUsed ≤ QUESTION_TIME_LIMIT := by
  refine ⟨rfl, mkAnswerRecord records q ua ic t tOut now, rfl, rfl, rfl, ?_, ?_⟩
  · exact le_max_left 0 _
  · exact max_le (by unfold QUESTION_TIME_LIMIT; omega) (min_le_right _ _)

theorem natRoundDiv_eq_round (a b : Nat) (hb : 0 < b) :
    (((2 * a + b) / (2 * b) : Nat) : ℤ) = round ((a : ℚ) / b) := by
  rw [round_eq]
  have hb' : (b : ℚ) ≠ 0 := Nat.cast_ne_zero.mpr (by omega)
  have harith : (a : ℚ) / b + 1 / 2 = ((2 * a + b : Nat) : ℚ) / ((2 * b : Nat) : ℚ) := by
    push_cast
    field_simp
    ring
  rw [harith, Rat.floor_natCast_div_natCast, Int.natCast_div]


/-- C9: `getScore` counts correct, incorrect (wrong and not timed out),
and timed-out records, reports the log length, and its percentage is the
rounded value of `100 * correct / total` (0 for an empty log). -/
theorem getScore_spec (records : List AnswerRecord) :
    (getScore records).correct = records.countP (fun r => r.isCorrect) ∧
    (getScore records).incorrect = records.countP (fun r => !r.isCorrect && !r.timedOut) ∧
    (getScore records).timeout = records.countP (fun r => r.timedOut) ∧
    (getScore records).total = records.length ∧
    ((getScore records).percentage : ℤ) =
      if records.length = 0 then 0
      else round ((100 * (records.countP (fun r => r.isCorrect)) : ℚ) /
        records.length) := by
  refine ⟨(List.countP_eq_length_filter _ _).symm,
    (List.countP_eq_length_filter _ _).symm,
    (List.countP_eq_length_filter _ _).symm, rfl, ?_⟩
  by_cases h : records.length = 0
  · rw [if_pos h]
    unfold getScore
    simp [h]
  · rw [if_neg h]
    unfold getScore
    simp only [gt_iff_lt]
    rw [if_pos (by omega)]
    rw [List.countP_eq_length_filter]
    have hkey := natRoundDiv_eq_round
      (100 * (records.filter (fun r => r.isCorrect)).length) records.length (by omega)
    push_cast at hkey
    exact hkey

/-- C6: for a running, unpaused timer, the remaining value the tick
computation observes at the pause instant equals the one it observes at
the resume instant (the start instant is shifted by exactly the paused
duration); pause is a no-op unless running and unpaused, and resume is a
no-op unless running and paused. -/
theorem pause_resume_spec (tm tm2 tm3 : Timer) (tp tr t2 t3 : Int)
    (h1 : tm.isRunning = true) (h2 : tm.isPaused = false)
    (hp : tm2.isRunning = false ∨ tm2.isPaused = true)
    (hr : tm3.isRunning = false ∨ tm3.isPaused = false) :
    remainingAtTime (Timer.resume (Timer.pause tm tp) tr) tr =
      remainingAtTime tm tp ∧
    Timer.pause tm2 t2 = tm2 ∧ Timer.resume tm3 t3 = tm3 := by
  refine ⟨?_, ?_, ?_⟩
  · unfold Timer.pause Timer.resume remainingAtTime
    simp only [h1, h2, Bool.not_false, Bool.and_self, if_pos]
    have : tr - (tm.startTime + (tr - tp)) = tp - tm.startTime := by ring
    simp [this]
  · rcases hp with h | h <;> simp [Timer.pause, h]
  · rcases hr with h | h <;> simp [Timer.resume, h]

theorem pause_resume_spec_witness :
    remainingAtTime (Timer.resume (Timer.pause sampleTimer 3000) 7000) 7000 =
      remainingAtTime sampleTimer 3000 ∧
    Timer.pause Timer.init 500 = Timer.init ∧
    Timer.resume Timer.init 600 = Timer.init :=
  pause_resume_spec sampleTimer Timer.init Timer.init 3000 7000 500 600 rfl rfl
    (Or.inl rfl) (Or.inl rfl)

theorem tick_not_running (tm : Timer) (h : tm.isRunning = false) (now : Int) :
    Timer.tick tm now = (tm, []) := by
  unfold Timer.tick
  rw [if_pos (by simp [h])]

theorem foldTicks_not_running (tm : Timer) (h : tm.isRunning = false)
    (ts : List Int) : foldTicks tm ts = [] := by
  induction ts with
  | nil => rfl
  | cons t ts ih => simp [foldTicks, tick_not_running tm h, ih]

theorem remainingAtTime_mkRunning (d t0 r t : Int) :
    remainingAtTime (mkRunning d t0 r) t = remAt d t0 t := rfl

theorem remAt_nonneg (d t0 t : Int) : 0 ≤ remAt d t0 t := le_max_left 0 _

theorem remAt_le_duration (d t0 t : Int) (hd : 0 ≤ d) (ht : t0 ≤ t) :
    remAt d t0 t ≤ d := by
  unfold remAt
  rw [max_le_iff]
  have hdiv : 0 ≤ (t - t0) / 1000 := Int.ediv_nonneg (by omega) (by norm_num)
  exact ⟨hd, by omega⟩

theorem remAt_anti (d t0 : Int) {a b : Int} (h : a ≤ b) :
    remAt d t0 b ≤ remAt d t0 a := by
  unfold remAt
  have hdiv : (a - t0) / 1000 ≤ (b - t0) / 1000 :=
    Int.ediv_le_ediv (by norm_num) (by omega)
  exact max_le_max (le_refl 0) (by omega)

theorem tick_mkRunning_expired (d t0 r t : Int) (h : remAt d t0 t ≤ 0) :
    Timer.tick (mkRunning d t0 r) t =
      (Timer.stop (mkRunning d t0 r), [TEvent.tick 0, TEvent.complete]) := by
  have h0 : remAt d t0 t = 0 := le_antisymm h (remAt_nonneg d t0 t)
  unfold Timer.tick
  rw [if_neg (by simp [mkRunning])]
  simp only [remainingAtTime_mkRunning, h0]
  rw [if_pos (by simp)]
  simp [mkRunning, Timer.stop]

theorem tick_mkRunning_live (d t0 r t : Int) (h : 0 < remAt d t0 t) :
    Timer.tick (mkRunning d t0 r) t =
      (mkRunning d t0 (remAt d t0 t), [TEvent.tick (remAt d t0 t)]) := by
  unfold Timer.tick
  rw [if_neg (by simp [mkRunning])]
  simp only [remainingAtTime_mkRunning]
  rw [if_neg (by simp; omega)]
  simp [mkRunning]

theorem foldTicks_mkRunning (d t0 : Int) (ts : List Int)
    (hex : ∃ t ∈ ts, remAt d t0 t ≤ 0) :
    ∀ r, foldTicks (mkRunning d t0 r) ts =
      (ts.takeWhile (fun t => decide (0 < remAt d t0 t))).map
        (fun t => TEvent.tick (remAt d t0 t)) ++
        [TEvent.tick 0, TEvent.complete] := by
  induction ts with
  | nil => simp at hex
  | cons t ts ih =>
      intro r
      by_cases h : remAt d t0 t ≤ 0
      · rw [List.takeWhile_cons]
        rw [if_neg (by simp; omega)]
        simp only [foldTicks, tick_mkRunning_expired d t0 r t h]
        rw [foldTicks_not_running _ rfl]
        simp
      · push_neg at h
        rw [List.takeWhile_cons, if_pos (by simp [h])]
        simp only [foldTicks, tick_mkRunning_live d t0 r t h]
        rw [ih ?_ (remAt d t0 t)]
        · simp
        · obtain ⟨u, hu, hle⟩ := hex
          rcases List.mem_cons.mp hu with rfl | hmem
          · omega
          · exact ⟨u, hmem, hle⟩

theorem start_init_pos (d t0 : Int) (hd : 0 < d) :
    Timer.start Timer.init d true true t0 = (mkRunning d t0 d, [TEvent.tick d]) := by
  unfold Timer.start Timer.init mkRunning
  simp [not_le.mpr hd]

theorem start_init_zero (t0 : Int) :
    Timer.start Timer.init 0 true true t0 =
      (Timer.stop (mkRunning 0 t0 0), [TEvent.tick 0, TEvent.complete]) := by
  unfold Timer.start Timer.init mkRunning Timer.stop
  simp

theorem tickValues_append (l1 l2 : List TEvent) :
    tickValues (l1 ++ l2) = tickValues l1 ++ tickValues l2 :=
  List.filterMap_append l1 l2 _

theorem tickValues_tickMap (f : Int → Int) (l : List Int) :
    tickValues (l.map fun t => TEvent.tick (f t)) = l.map f := by
  unfold tickValues
  rw [List.filterMap_map]
  exact List.filterMap_eq_map f ▸ rfl

theorem countComplete_append (l1 l2 : List TEvent) :
    countComplete (l1 ++ l2) = countComplete l1 + countComplete l2 := by
  unfold countComplete
  rw [List.filter_append, List.length_append]

theorem countComplete_tickMap (f : Int → Int) (l : List Int) :
    countComplete (l.map fun t => TEvent.tick (f t)) = 0 := by
  unfold countComplete
  rw [List.filter_map]
  simp [Function.comp]

/-- C2: an externally undisturbed run of `start(d, onComplete, onTick)`
with `d ≥ 0`, whose scheduler instants are non-decreasing, not earlier
than the start instant, and eventually reach the deadline, delivers a
non-increasing sequence of `onTick` values that begins at `d` (the
synchronous initial tick) and ends at `0`, and invokes `onComplete`
exactly once. -/
theorem timer_run_spec (d t0 : Int) (times : List Int) (hd : 0 ≤ d)
    (hmono : times.Chain' (· ≤ ·)) (hge : ∀ t ∈ times, t0 ≤ t)
    (hfin : ∃ t ∈ times, t0 + 1000 * d ≤ t) :
    (tickValues (runTimer d t0 times)).head? = some d ∧
    (tickValues (runTimer d t0 times)).getLast? = some 0 ∧
    (tickValues (runTimer d t0 times)).Chain' (fun x y => y ≤ x) ∧
    countComplete (runTimer d t0 times) = 1 := by
  rcases eq_or_lt_of_le hd with hzero | hpos
  · subst hzero
    unfold runTimer
    rw [start_init_zero]
    simp only []
    rw [foldTicks_not_running _ rfl]
    refine ⟨rfl, rfl, ?_, rfl⟩
    simp [tickValues]
  · have hex : ∃ t ∈ times, remAt d t0 t ≤ 0 := by
      obtain ⟨t, ht, hle⟩ := hfin
      refine ⟨t, ht, ?_⟩
      unfold remAt
      rw [max_le_iff]
      exact ⟨le_refl 0, by omega⟩
    unfold runTimer
    rw [start_init_pos d t0 hpos]
    simp only []
    rw [foldTicks_mkRunning d t0 times hex d]
    have htv2 : tickValues
        ((times.takeWhile (fun t => decide (0 < remAt d t0 t))).map
          (fun t => TEvent.tick (remAt d t0 t)) ++
          [TEvent.tick 0, TEvent.complete]) =
        (times.takeWhile (fun t => decide (0 < remAt d t0 t))).map
          (fun t => remAt d t0 t) ++ [0] := by
      rw [tickValues_append, tickValues_tickMap]
      rfl
    have htv1 : tickValues [TEvent.tick d] = [d] := rfl
    rw [tickValues_append, htv1, htv2, List.singleton_append]
    have hsub : ∀ u ∈ times.takeWhile (fun t => decide (0 < remAt d t0 t)),
        u ∈ times := fun u hu => List.takeWhile_subset _ hu
    refine ⟨rfl, ?_, ?_, ?_⟩
    · rw [← List.cons_append, List.getLast?_concat]
    · rw [List.chain'_cons']
      constructor
      · intro y hy
        rcases hhead : (times.takeWhile (fun t => decide (0 < remAt d t0 t))).map
            (fun t => remAt d t0 t) with _ | ⟨a, l⟩
        · rw [hhead] at hy
          simp at hy
          omega
        · rw [hhead] at hy
          simp only [List.cons_append, List.head?_cons, Option.mem_def,
            Option.some.injEq] at hy
          subst hy
          have ha : a ∈ (times.takeWhile (fun t => decide (0 < remAt d t0 t))).map
              (fun t => remAt d t0 t) := by rw [hhead]; exact List.mem_cons_self a l
          obtain ⟨u, hu, rfl⟩ := List.mem_map.mp ha
          exact remAt_le_duration d t0 u hd (hge u (hsub u hu))
      · rw [List.chain'_append]
        refine ⟨?_, List.chain'_singleton 0, ?_⟩
        · rw [List.chain'_map]
          have hcw : (times.takeWhile (fun t => decide (0 < remAt d t0 t))).Chain'
              (· ≤ ·) := List.Chain'.sublist hmono (List.takeWhile_sublist _)
          exact hcw.imp fun a b hab => remAt_anti d t0 hab
        · intro x hx y hy
          simp only [List.head?_cons, Option.mem_def, Option.some.injEq] at hy
          subst hy
          have hxm := List.mem_of_mem_getLast? hx
          obtain ⟨u, hu, rfl⟩ := List.mem_map.mp hxm
          exact remAt_nonneg d t0 u
    · rw [countComplete_append, countComplete_append, countComplete_tickMap]
      rfl

theorem timer_run_spec_witness :
    (tickValues (runTimer 2 0 [1000, 2000])).head? = some 2 ∧
    (tickValues (runTimer 2 0 [1000, 2000])).getLast? = some 0 ∧
    (tickValues (runTimer 2 0 [1000, 2000])).Chain' (fun x y => y ≤ x) ∧
    countComplete (runTimer 2 0 [1000, 2000]) = 1 :=
  timer_run_spec 2 0 [1000, 2000] (by decide)
    (List.chain'_pair.mpr (by norm_num)) (by decide) (by decide)

/-- C4: any record appended by `submitAnswer` has `timedOut = false`, and
any record appended by the timeout handler has `timedOut = true`,
`isCorrect = false`, an empty answer, and the full per-question duration
as its time used; hence every orchestrator-produced record satisfies
`timedOut ⇒ ¬isCorrect ∧ userAnswer = ""`. -/
theorem orchestrator_record_invariant (g : GameSt) (a : Str) (now now2 : Int) :
    ((submitAnswer g a now).1.records = g.records ∨
      ∃ r, (submitAnswer g a now).1.records = g.records ++ [r] ∧
        r.timedOut = false) ∧
    ((handleTimerComplete g now2).1.records = g.records ∨
      ∃ r, (handleTimerComplete g now2).1.records = g.records ++ [r] ∧
        r.timedOut = true ∧ r.isCorrect = false ∧ r.userAnswer = [] ∧
        r.timeUsed = QUESTION_TIME_LIMIT) := by
  constructor
  · unfold submitAnswer
    split
    · left; rfl
    · split
      · left; rfl
      · split
        · left; rfl
        · split
          · left; rfl
          · simp only [recordAnswer]
            right
            exact ⟨_, rfl, rfl⟩
  · unfold handleTimerComplete
    split
    · left; rfl
    · split
      · left; rfl
      · simp only [recordAnswer]
        right
        exact ⟨_, rfl, rfl, rfl, rfl, rfl⟩

/-- C1: the "waiting for next question" latch makes both `submitAnswer`
and the timeout handler exact no-ops; whenever either path appends a
record it sets the latch; and an expired or inactive timer makes
`submitAnswer` an exact no-op.  Together: at most one of the two paths
records for a given question, after which both are no-ops. -/
theorem submission_timeout_mutual_exclusion (g : GameSt) (a : Str)
    (now now2 : Int) :
    (g.isWaitingForNextQuestion = true →
      submitAnswer g a now = (g, Outcome.ignored) ∧
      handleTimerComplete g now2 = (g, Outcome.ignored)) ∧
    ((submitAnswer g a now).1.records ≠ g.records →
      (submitAnswer g a now).1.isWaitingForNextQuestion = true) ∧
    ((handleTimerComplete g now2).1.records ≠ g.records →
      (handleTimerComplete g now2).1.isWaitingForNextQuestion = true) ∧
    (g.timer.isRunning = false ∨ g.timer.timeRemaining ≤ 0 →
      submitAnswer g a now = (g, Outcome.ignored)) := by
  refine ⟨?_, ?_, ?_, ?_⟩
  · intro h
    constructor
    · unfold submitAnswer
      rw [if_pos (Or.inl h)]
    · unfold handleTimerComplete
      rw [if_pos (Or.inl h)]
  · unfold submitAnswer
    split
    · intro h; exact absurd rfl h
    · split
      · intro h; exact absurd rfl h
      · split
        · intro h; exact absurd rfl h
        · split
          · intro h; exact absurd rfl h
          · simp only [recordAnswer]
            intro _
            trivial
  · unfold handleTimerComplete
    split
    · intro h; exact absurd rfl h
    · split
      · intro h; exact absurd rfl h
      · simp only [recordAnswer]
        intro _
        trivial
  · intro h
    unfold submitAnswer
    split
    · rfl
    · split
      · rfl
      · rw [if_pos ?_]
        rcases h with h | h
        · simp [h]
        · simp [h]

/-- C5: while the session is active, a question is current, and the timer
is live, an input that fails kind validation makes `submitAnswer` surface
the validation message and change nothing: no record, no advance, timer
untouched. -/
theorem invalid_submission_consumes_nothing (g : GameSt) (q : Question)
    (a : Str) (now : Int)
    (hw : g.isWaitingForNextQuestion = false) (hs : g.status = GameStatus.active)
    (hq : g.currentQuestion = some q)
    (ht : g.timer.isRunning = true) (hr : 0 < g.timer.timeRemaining)
    (hv : (validateInput a (expectedTypeFor q)).isValid = false) :
    submitAnswer g a now =
      (g, Outcome.validationError
        (validateInput a (expectedTypeFor q)).errorMessage) := by
  unfold submitAnswer
  rw [if_neg (by simp [hw, hs])]
  simp only [hq]
  rw [if_neg (by simp [ht]; omega)]
  rw [if_pos (by simp [hv])]

theorem invalid_submission_consumes_nothing_witness :
    submitAnswer sampleGame "27".data 3000 =
      (sampleGame, Outcome.validationError
        (validateInput "27".data (expectedTypeFor sampleQuestion)).errorMessage) :=
  invalid_submission_consumes_nothing sampleGame sampleQuestion "27".data 3000
    rfl rfl rfl rfl (by decide) (by decide)

end AlphanumDash
